import Mathlib

/-!
Shallow embedding of the English-Teacher live-conversation app
(src/types.ts).  The source is a single React component whose state lives
in mutable refs and React state cells; here that state is one record
(`AppState`) and each handler of the source becomes a pure function on it.
Side effects on external resources (stopping an audio source, releasing
the microphone, closing contexts or the session) are recorded as an
explicit list of `Effect` values returned next to the new state.
Time values (the audio clock and buffer durations) are modelled as
rationals.
-/

namespace EnglishTeacher

/-- Speaker tag of a transcript entry (source: `speaker: 'You' | 'Teacher'`). -/
inductive Speaker
  | you
  | teacher
deriving DecidableEq, Repr

/-- One committed transcript line (src/types.ts, `TranscriptEntry`). -/
structure TranscriptEntry where
  speaker : Speaker
  text : String
deriving DecidableEq, Repr

/-- Conversation status (src/types.ts, `Status`). -/
inductive Status
  | idle
  | connecting
  | listening
  | speaking
  | error
deriving DecidableEq, Repr

/-- A scheduled `AudioBufferSourceNode`: its identity (JS object identity,
modelled by a fresh number), the time it was scheduled to start at, and the
duration of its buffer. -/
structure PlaySource where
  id : Nat
  startAt : ℚ
  duration : ℚ
deriving DecidableEq, Repr

/-- External side effects performed on resources outside the state record. -/
inductive Effect
  | sourceStop (id : Nat)
  | micRelease (id : Nat)
  | processorDisconnect
  | ctxClose
  | sessionClose
deriving DecidableEq, Repr

/-- The mutable state of the component: React state cells (`status`,
`transcript`, `errorMessage`) and refs (`sessionPromiseRef`,
`inputAudioContextRef`, `outputAudioContextRef`, `mediaStreamRef`,
`scriptProcessorRef`, `sourcesRef`, `nextStartTimeRef`,
`currentInputTranscriptionRef`, `currentOutputTranscriptionRef`).
References to external objects are modelled by presence flags or ids;
`nextSourceId` supplies fresh identities for created source nodes. -/
structure AppState where
  status : Status
  transcript : List TranscriptEntry
  errorMessage : String
  sessionActive : Bool
  inputCtx : Bool
  outputCtx : Bool
  mediaStream : Option Nat
  scriptProcessor : Bool
  sources : List PlaySource
  nextSourceId : Nat
  nextStartTime : ℚ
  currentInput : String
  currentOutput : String
deriving DecidableEq, Repr

/-! ## PcmCodec (src/types.ts lines 120-131 and the decode direction)

The capture path writes `inputData[i] * 32768` into an `Int16Array`; the
JS conversion truncates the number toward zero and then wraps it into the
signed 16-bit range modulo 2^16 (ECMAScript ToInt16).  Samples are
modelled as rationals; the byte-level little-endian/base64 framing is a
bijection on int16 sequences and is elided. -/

/-- JS number-to-integer conversion step: truncation toward zero. -/
def jsTrunc (q : ℚ) : ℤ :=
  if 0 ≤ q then ⌊q⌋ else ⌈q⌉

/-- ECMAScript ToInt16: wrap an integer into [-32768, 32767] modulo 2^16. -/
def toInt16 (n : ℤ) : ℤ :=
  if 32768 ≤ n % 65536 then n % 65536 - 65536 else n % 65536

/-- Encoding of one sample as performed by the capture loop
(src/types.ts line 126): scale by 32768, truncate, wrap to int16. -/
def encodeSample (s : ℚ) : ℤ :=
  toInt16 (jsTrunc (s * 32768))

/-- Modelled from the spec: the inbound decode path (`decode` /
`decodeAudioData` of src/utils/audio, absent from src/) reinterprets the
bytes as 16-bit samples and rescales to floats in [-1, 1]; one int16
sample becomes the float `n / 32768`. -/
def decodeSample (n : ℤ) : ℚ :=
  (n : ℚ) / 32768

/-- Outbound transport encoding of a block of samples (capture loop). -/
def toTransportEncoding (xs : List ℚ) : List ℤ :=
  xs.map encodeSample

/-- Modelled from the spec: inbound transport decoding, samplewise
`decodeSample` (src/utils/audio is absent from src/). -/
def fromTransportEncoding (ns : List ℤ) : List ℚ :=
  ns.map decodeSample

/-! ## String trimming (JS `String.prototype.trim`)

The trim in the turn-complete branch strips leading and trailing
whitespace.  The ASCII whitespace characters are modelled; JS also strips
Unicode space separators, which no claim depends on. -/

/-- Whitespace predicate for the JS trim. -/
def jsWhitespace (c : Char) : Bool :=
  c = ' ' || c = '\t' || c = '\n' || c = '\r' || c = '\x0b' || c = '\x0c'

/-- Drop whitespace from both ends of a character list. -/
def trimChars (l : List Char) : List Char :=
  ((l.dropWhile jsWhitespace).reverse.dropWhile jsWhitespace).reverse

/-- JS `trim` on the string contents. -/
def jsTrim (s : String) : String :=
  ⟨trimChars s.data⟩

/-! ## Playback control (src/types.ts lines 38-46) -/

/-- Handler `stopAllPlayback`: stop every source in the set, clear the set, reset
the virtual clock `nextStartTime` to 0 (src/types.ts lines 38-46). -/
def stopAllPlayback (s : AppState) : AppState × List Effect :=
  ({ s with sources := [], nextStartTime := 0 },
   s.sources.map fun src => Effect.sourceStop src.id)

/-- Handler `cleanUpAudio` (src/types.ts lines 48-69): stop playback, release the
microphone tracks and null the ref, disconnect the script processor, close
both audio contexts when present. -/
def cleanUpAudio (s : AppState) : AppState × List Effect :=
  let p := stopAllPlayback s
  let s1 := p.1
  let micEff := match s1.mediaStream with
    | some k => [Effect.micRelease k]
    | none => []
  let s2 := { s1 with mediaStream := none }
  let procEff := if s2.scriptProcessor then [Effect.processorDisconnect] else []
  let s3 := { s2 with scriptProcessor := false }
  let inEff := if s3.inputCtx then [Effect.ctxClose] else []
  let s4 := { s3 with inputCtx := false }
  let outEff := if s4.outputCtx then [Effect.ctxClose] else []
  let s5 := { s4 with outputCtx := false }
  (s5, p.2 ++ micEff ++ procEff ++ inEff ++ outEff)

/-- Handler `stopConversation` (src/types.ts lines 71-83): set status `idle`,
close the session when one exists (a failing close is caught and logged),
null the session ref, then `cleanUpAudio`.  The function models the
handler run to completion, its awaited continuation included. -/
def stopConversation (s : AppState) : AppState × List Effect :=
  let s1 := { s with status := Status.idle }
  let closePair : AppState × List Effect :=
    if s1.sessionActive then
      ({ s1 with sessionActive := false }, [Effect.sessionClose])
    else (s1, [])
  let c := cleanUpAudio closePair.1
  (c.1, closePair.2 ++ c.2)

/-! ## Inbound message handling (src/types.ts lines 141-189) -/

/-- A decoded inbound audio payload: the duration of the buffer that
`decodeAudioData` produces for it. -/
structure AudioPayload where
  duration : ℚ
deriving DecidableEq, Repr

/-- One `LiveServerMessage` as consumed by `onmessage`: any combination of
inbound audio, input/output transcription deltas, turn-complete and
interrupted flags. -/
structure ServerMessage where
  audioData : Option AudioPayload
  inputTranscription : Option String
  outputTranscription : Option String
  turnComplete : Bool
  interrupted : Bool
deriving DecidableEq, Repr

/-- The `ended` listener of a scheduled source (src/types.ts lines
153-158): remove the source from the set; when the set becomes empty, set
status `listening`. -/
def onEnded (srcId : Nat) (s : AppState) : AppState :=
  let s1 := { s with sources := s.sources.filter fun src => src.id ≠ srcId }
  if s1.sources.length = 0 then { s1 with status := Status.listening } else s1

/-- Deliver the `ended` events of the given sources in order. -/
def deliverEnded (ids : List Nat) (s : AppState) : AppState :=
  ids.foldl (fun t i => onEnded i t) s

/-- Audio branch body under the output-context guard (src/types.ts lines
147-162): raise `nextStartTime` to the current clock, schedule a new
source at it, advance `nextStartTime` by the buffer duration, register the
source. -/
def handleAudio (clock : ℚ) (d : ℚ) (s : AppState) : AppState :=
  if s.outputCtx then
    let nst := max s.nextStartTime clock
    { s with nextStartTime := nst + d,
             sources := s.sources ++ [⟨s.nextSourceId, nst, d⟩],
             nextSourceId := s.nextSourceId + 1 }
  else s

/-- Turn-complete branch (src/types.ts lines 172-185): trim both open
buffers, append a user entry then an assistant entry for the non-empty
ones, reset both buffers. -/
def sealTurn (s : AppState) : AppState :=
  let fullInput := jsTrim s.currentInput
  let fullOutput := jsTrim s.currentOutput
  let t1 := if fullInput ≠ "" then s.transcript ++ [⟨Speaker.you, fullInput⟩]
            else s.transcript
  let t2 := if fullOutput ≠ "" then t1 ++ [⟨Speaker.teacher, fullOutput⟩]
            else t1
  { s with transcript := t2, currentInput := "", currentOutput := "" }

/-- Handler `onmessage` (src/types.ts lines 141-189), with `clock` the output
context clock at delivery time: the audio branch sets status `speaking`
and schedules the decoded buffer; transcription deltas are appended to the
open buffers; a turn-complete flag seals the turn; an interrupted flag
stops all playback. -/
def onmessage (clock : ℚ) (msg : ServerMessage) (s : AppState) :
    AppState × List Effect :=
  let s1 := match msg.audioData with
    | some a => handleAudio clock a.duration { s with status := Status.speaking }
    | none => s
  let s2 := match msg.inputTranscription with
    | some t => { s1 with currentInput := s1.currentInput ++ t }
    | none => s1
  let s3 := match msg.outputTranscription with
    | some t => { s2 with currentOutput := s2.currentOutput ++ t }
    | none => s2
  let s4 := if msg.turnComplete then sealTurn s3 else s3
  if msg.interrupted then stopAllPlayback s4 else (s4, [])

/-- Handler `onerror` (src/types.ts lines 191-196): record the error message, set
status `error`, then run `stopConversation` (whose first synchronous step
sets status `idle`). -/
def onerror (m : String) (s : AppState) : AppState × List Effect :=
  stopConversation
    { s with errorMessage := "An error occurred: " ++ m ++ ". Please try again.",
             status := Status.error }

/-! ## Starting a conversation (src/types.ts lines 86-213) -/

/-- Point at which `startConversation` can throw after the microphone
stream was acquired: the client constructor, either audio-context
constructor, or the `connect` call. -/
inductive StartFailPhase
  | clientCtor
  | inputCtxCtor
  | outputCtxCtor
  | connectCall
deriving DecidableEq, Repr

/-- Environment outcome of one `startConversation` run: microphone denied,
a throw after the microphone was acquired, or success up to recording the
session promise. -/
inductive StartOutcome
  | micDenied (errMsg : String)
  | failAfter (streamId : Nat) (phase : StartFailPhase) (errMsg : String)
  | success (streamId : Nat)
deriving DecidableEq, Repr

/-- Error text produced by the catch block (src/types.ts line 210). -/
def failMsg (m : String) : String :=
  "Failed to start: " ++ m ++ ". Make sure microphone access is allowed."

/-- Handler `startConversation` (src/types.ts lines 86-213) under a given
environment outcome: clear transcript and error text, set `connecting`;
then acquire the microphone and set up client, contexts and session, the
catch block only recording the failure text and setting status `error`. -/
def startConversation (outcome : StartOutcome) (s : AppState) :
    AppState × List Effect :=
  let s0 := { s with transcript := [], errorMessage := "",
                     status := Status.connecting }
  match outcome with
  | StartOutcome.micDenied m =>
      ({ s0 with errorMessage := failMsg m, status := Status.error }, [])
  | StartOutcome.failAfter k phase m =>
      let s1 := { s0 with mediaStream := some k }
      let s2 := match phase with
        | StartFailPhase.clientCtor => s1
        | StartFailPhase.inputCtxCtor => s1
        | StartFailPhase.outputCtxCtor => { s1 with inputCtx := true }
        | StartFailPhase.connectCall =>
            { s1 with inputCtx := true, outputCtx := true }
      ({ s2 with errorMessage := failMsg m, status := Status.error }, [])
  | StartOutcome.success k =>
      ({ s0 with mediaStream := some k, inputCtx := true, outputCtx := true,
                 sessionActive := true }, [])

/-! ## Message shapes and scheduling traces -/

/-- A message carrying only inbound audio of duration `d`. -/
def audioMsg (d : ℚ) : ServerMessage :=
  ⟨some ⟨d⟩, none, none, false, false⟩

/-- A message carrying only an input-transcription delta. -/
def inputDeltaMsg (t : String) : ServerMessage :=
  ⟨none, some t, none, false, false⟩

/-- A message carrying only an output-transcription delta. -/
def outputDeltaMsg (t : String) : ServerMessage :=
  ⟨none, none, some t, false, false⟩

/-- A message carrying only the turn-complete flag. -/
def turnCompleteMsg : ServerMessage :=
  ⟨none, none, none, true, false⟩

/-- A message carrying only the interrupted flag. -/
def interruptedMsg : ServerMessage :=
  ⟨none, none, none, false, true⟩

/-- Run `onmessage` over a sequence of audio-only messages, each given as
a pair of the output clock at its delivery and the decoded duration. -/
def playTrace (chunks : List (ℚ × ℚ)) (s : AppState) : AppState :=
  chunks.foldl (fun t p => (onmessage p.1 (audioMsg p.2) t).1) s

/-- Back-to-back start times for the given durations, the first at `acc`:
each entry is `acc` plus the sum of the prior durations. -/
def cumStarts (acc : ℚ) : List ℚ → List ℚ
  | [] => []
  | d :: rest => acc :: cumStarts (acc + d) rest

/-- Delivery without interruption of playback: at each chunk the output
clock has not passed the virtual timeline position `acc` reached by the
prior chunks. -/
def clocksDominated (acc : ℚ) : List (ℚ × ℚ) → Prop
  | [] => True
  | (c, d) :: rest => c ≤ acc ∧ clocksDominated (acc + d) rest

/-! ## Concrete states used by witnesses and counterexamples -/

/-- A state in the middle of a live conversation: listening, session and
contexts up, microphone held. -/
def listeningState : AppState :=
  { status := Status.listening
    transcript := []
    errorMessage := ""
    sessionActive := true
    inputCtx := true
    outputCtx := true
    mediaStream := some 7
    scriptProcessor := true
    sources := []
    nextSourceId := 0
    nextStartTime := 0
    currentInput := ""
    currentOutput := "" }

/-- A state in which the assistant is speaking with two scheduled sources
and open transcription buffers. -/
def speakingState : AppState :=
  { status := Status.speaking
    transcript := []
    errorMessage := ""
    sessionActive := true
    inputCtx := true
    outputCtx := true
    mediaStream := some 7
    scriptProcessor := true
    sources := [⟨0, 0, 2⟩, ⟨1, 2, 3⟩]
    nextSourceId := 2
    nextStartTime := 5
    currentInput := " Hi there "
    currentOutput := "Hello! How can I help?"
    }

/-- A fully torn-down state: no session, no resources, idle. -/
def freshState : AppState :=
  { status := Status.idle
    transcript := []
    errorMessage := ""
    sessionActive := false
    inputCtx := false
    outputCtx := false
    mediaStream := none
    scriptProcessor := false
    sources := []
    nextSourceId := 0
    nextStartTime := 0
    currentInput := ""
    currentOutput := "" }

/-! ## Codec lemmas -/

/-- Truncation toward zero differs from its argument by less than one. -/
theorem jsTrunc_close (t : ℚ) : |((jsTrunc t : ℤ) : ℚ) - t| < 1 := by
  unfold jsTrunc
  split
  · rw [abs_sub_comm, abs_of_nonneg (sub_nonneg.mpr (Int.floor_le t))]
    have h := Int.lt_floor_add_one t
    push_cast at h
    linarith
  · rw [abs_of_nonneg (sub_nonneg.mpr (Int.le_ceil t))]
    have h := Int.ceil_lt_add_one t
    push_cast at h
    linarith

/-- Lower bound of the truncation on the int16 input range. -/
theorem jsTrunc_lower (t : ℚ) (h : -32768 ≤ t) : -32768 ≤ jsTrunc t := by
  unfold jsTrunc
  split
  · have h0 : (0 : ℚ) ≤ t := by assumption
    have h1 : (0 : ℤ) ≤ ⌊t⌋ := Int.le_floor.mpr (by exact_mod_cast h0)
    omega
  · have h1 : ((-32768 : ℤ) : ℚ) ≤ (⌈t⌉ : ℚ) :=
      le_trans (by exact_mod_cast h) (Int.le_ceil t)
    exact_mod_cast h1

/-- Upper bound of the truncation on the int16 input range. -/
theorem jsTrunc_upper (t : ℚ) (h : t < 32768) : jsTrunc t ≤ 32767 := by
  unfold jsTrunc
  split
  · have h1 : (⌊t⌋ : ℚ) < 32768 := lt_of_le_of_lt (Int.floor_le t) h
    have h2 : ⌊t⌋ < 32768 := by exact_mod_cast h1
    omega
  · have h0 : ¬ 0 ≤ t := by assumption
    have h1 : ⌈t⌉ ≤ 0 := Int.ceil_le.mpr (by push_cast; linarith [lt_of_not_le h0])
    omega

/-- ToInt16 is the identity on the signed 16-bit range. -/
theorem toInt16_eq_self (n : ℤ) (h1 : -32768 ≤ n) (h2 : n ≤ 32767) :
    toInt16 n = n := by
  unfold toInt16
  split <;> omega

/-- One decoded-after-encoded sample is within one quantization step of
the original when the sample lies in the half-open interval [-1, 1). -/
theorem decode_encode_close (s : ℚ) (h1 : -1 ≤ s) (h2 : s < 1) :
    |decodeSample (encodeSample s) - s| < 1 / 32768 := by
  have ht1 : (-32768 : ℚ) ≤ s * 32768 := by linarith
  have ht2 : s * 32768 < 32768 := by linarith
  have hlo := jsTrunc_lower (s * 32768) ht1
  have hhi := jsTrunc_upper (s * 32768) ht2
  have hcl := jsTrunc_close (s * 32768)
  unfold encodeSample decodeSample
  rw [toInt16_eq_self _ hlo hhi]
  have hrw : ((jsTrunc (s * 32768) : ℤ) : ℚ) / 32768 - s
      = (((jsTrunc (s * 32768) : ℤ) : ℚ) - s * 32768) / 32768 := by
    ring
  rw [hrw, abs_div, abs_of_pos (show (0 : ℚ) < 32768 by norm_num)]
  exact (div_lt_div_iff_of_pos_right (show (0 : ℚ) < 32768 by norm_num)).mpr hcl

/-- The sample exactly 1 encodes to the wrapped value -32768. -/
theorem encodeSample_one : encodeSample 1 = -32768 := by
  have h : jsTrunc ((1 : ℚ) * 32768) = 32768 := by
    unfold jsTrunc
    rw [if_pos (by norm_num)]
    norm_num
  unfold encodeSample
  rw [h]
  unfold toInt16
  decide

/-- C8: the PCM encoding step multiplies each sample by 32768 and
truncates to a signed 16-bit integer without clamping; at the input
sample 1.0 the scaled, truncated value 32768 wraps modulo 2^16 to
-32768 instead of saturating at the int16 boundary 32767. -/
theorem pcm_scaling_wraps :
    jsTrunc ((1 : ℚ) * 32768) = 32768
    ∧ encodeSample 1 = toInt16 (jsTrunc ((1 : ℚ) * 32768))
    ∧ encodeSample 1 = -32768
    ∧ encodeSample 1 ≠ 32767 := by
  refine ⟨?_, rfl, encodeSample_one, ?_⟩
  · unfold jsTrunc
    rw [if_pos (by norm_num)]
    norm_num
  · rw [encodeSample_one]
    decide

/-- C7 (counterexample): at the in-range sample sequence [1.0] the
round trip returns [-1.0], an error of 2, far beyond the int16
quantization step. -/
theorem roundtrip_counterexample :
    fromTransportEncoding (toTransportEncoding [(1 : ℚ)]) = [(-1 : ℚ)]
    ∧ ¬ |(-1 : ℚ) - 1| < 1 / 32768 := by
  constructor
  · show [decodeSample (encodeSample 1)] = [(-1 : ℚ)]
    rw [encodeSample_one]
    norm_num [decodeSample]
  · norm_num

/-- C7 (amended): for every sequence of samples in the half-open
interval [-1, 1), decoding the transport encoding reproduces each sample
within the int16 quantization step 1/32768; the endpoint 1.0 itself wraps
and is excluded. -/
theorem roundtrip_within_quantization (xs : List ℚ)
    (h : ∀ x ∈ xs, -1 ≤ x ∧ x < 1) :
    List.Forall₂ (fun a b => |b - a| < 1 / 32768) xs
      (fromTransportEncoding (toTransportEncoding xs)) := by
  induction xs with
  | nil => exact List.Forall₂.nil
  | cons x rest ih =>
      have hx := h x (by simp)
      have hrest : ∀ y ∈ rest, -1 ≤ y ∧ y < 1 := fun y hy => h y (by simp [hy])
      exact List.Forall₂.cons (decode_encode_close x hx.1 hx.2) (ih hrest)

/-- Witness for the amended C7 theorem at the concrete sequence
[1/2, -1/2]. -/
theorem roundtrip_within_quantization_witness :
    ((∀ x ∈ [(1 : ℚ)/2, -(1 : ℚ)/2], -1 ≤ x ∧ x < 1)
    ∧ List.Forall₂ (fun a b => |b - a| < 1 / 32768) [(1 : ℚ)/2, -(1 : ℚ)/2]
        (fromTransportEncoding (toTransportEncoding [(1 : ℚ)/2, -(1 : ℚ)/2]))) := by
  constructor
  · intro x hx
    fin_cases hx <;> norm_num
  · exact roundtrip_within_quantization _ (by
      intro x hx
      fin_cases hx <;> norm_num)

/-! ## Scheduler lemmas -/

/-- One audio-only message under an open output context: status becomes
speaking, the new source starts at the maximum of the virtual clock and
the context clock, and the virtual clock advances by the duration. -/
theorem audio_step (c d : ℚ) (t : AppState) (h : t.outputCtx = true) :
    onmessage c (audioMsg d) t =
      ({ t with status := Status.speaking,
                nextStartTime := max t.nextStartTime c + d,
                sources := t.sources
                  ++ [⟨t.nextSourceId, max t.nextStartTime c, d⟩],
                nextSourceId := t.nextSourceId + 1 }, []) := by
  simp [onmessage, audioMsg, handleAudio, h]

/-- Running a trace of audio messages whose clocks never pass the virtual
timeline appends back-to-back sources and advances the virtual clock by
the total duration. -/
theorem playTrace_spec (chunks : List (ℚ × ℚ)) :
    ∀ t : AppState, t.outputCtx = true →
      clocksDominated t.nextStartTime chunks →
      (playTrace chunks t).sources.map PlaySource.startAt
          = t.sources.map PlaySource.startAt
            ++ cumStarts t.nextStartTime (chunks.map Prod.snd)
      ∧ (playTrace chunks t).nextStartTime
          = t.nextStartTime + (chunks.map Prod.snd).sum := by
  induction chunks with
  | nil =>
      intro t h1 h2
      simp [playTrace, cumStarts]
  | cons p rest ih =>
      intro t h1 h2
      obtain ⟨c, d⟩ := p
      obtain ⟨hc, hrest⟩ := h2
      have hmax : max t.nextStartTime c = t.nextStartTime := max_eq_left hc
      have hunfold : playTrace ((c, d) :: rest) t
          = playTrace rest (onmessage c (audioMsg d) t).1 := rfl
      rw [hunfold, audio_step c d t h1]
      dsimp only
      rw [hmax]
      have hres := ih
        { t with status := Status.speaking,
                 nextStartTime := t.nextStartTime + d,
                 sources := t.sources ++ [⟨t.nextSourceId, t.nextStartTime, d⟩],
                 nextSourceId := t.nextSourceId + 1 }
        h1 hrest
      refine ⟨?_, ?_⟩
      · rw [hres.1]
        simp [cumStarts, List.append_assoc]
      · rw [hres.2]
        dsimp only
        simp [List.sum_cons]
        ring

/-- Virtual-clock value after one arbitrary message. -/
theorem onmessage_nst (clock : ℚ) (msg : ServerMessage) (s : AppState) :
    (onmessage clock msg s).1.nextStartTime =
      if msg.interrupted then 0
      else
        match msg.audioData with
        | some a =>
            if s.outputCtx then max s.nextStartTime clock + a.duration
            else s.nextStartTime
        | none => s.nextStartTime := by
  rcases msg with ⟨audio, inp, ot, tc, intr⟩
  rcases audio with _ | a
  · rcases inp with _ | ti <;> rcases ot with _ | tt <;>
      rcases tc with _ | _ <;> rcases intr with _ | _ <;>
        simp [onmessage, sealTurn, stopAllPlayback]
  · by_cases hctx : s.outputCtx <;>
      rcases inp with _ | ti <;> rcases ot with _ | tt <;>
        rcases tc with _ | _ <;> rcases intr with _ | _ <;>
          simp [onmessage, handleAudio, sealTurn, stopAllPlayback, hctx]

/-- Delivering ended events to a state with no registered sources keeps
the source set empty and the status listening. -/
theorem deliverEnded_inv (ids : List Nat) :
    ∀ t : AppState, t.sources = [] → t.status = Status.listening →
      (deliverEnded ids t).sources = []
      ∧ (deliverEnded ids t).status = Status.listening := by
  induction ids with
  | nil =>
      intro t h1 h2
      exact ⟨h1, h2⟩
  | cons i rest ih =>
      intro t h1 h2
      have hstep : (onEnded i t).sources = []
          ∧ (onEnded i t).status = Status.listening := by
        simp [onEnded, h1]
      exact ih (onEnded i t) hstep.1 hstep.2

/-- State reached by one full stop, for any starting state. -/
theorem stopConversation_state (s : AppState) :
    (stopConversation s).1 =
      { s with status := Status.idle, sessionActive := false, sources := [],
               nextStartTime := 0, mediaStream := none,
               scriptProcessor := false, inputCtx := false,
               outputCtx := false } := by
  cases hS : s.sessionActive <;>
    simp [stopConversation, cleanUpAudio, stopAllPlayback, hS]

/-- The audio cleanup never emits a session-close effect. -/
theorem sessionClose_not_in_cleanUpAudio (t : AppState) :
    Effect.sessionClose ∉ (cleanUpAudio t).2 := by
  cases hm : t.mediaStream <;> cases hp : t.scriptProcessor <;>
    cases hi : t.inputCtx <;> cases ho : t.outputCtx <;>
      simp [cleanUpAudio, stopAllPlayback, hm, hp, hi, ho]

/-! ## Claim theorems -/

/-- C1: for a sequence of inbound audio chunks enqueued without an
intervening interruption (the context clock never passing the virtual
timeline), each chunk starts at max(nextStartTime, clock) and advances
nextStartTime by its duration, and starting from a fresh scheduler the
scheduled start times are exactly the cumulative sums of the prior
durations, back to back and non-overlapping. -/
theorem scheduler_cumulative_starts (chunks : List (ℚ × ℚ)) (s : AppState)
    (h1 : s.outputCtx = true) (h2 : s.sources = []) (h3 : s.nextStartTime = 0)
    (h4 : clocksDominated 0 chunks) :
    ((∀ (c d : ℚ) (t : AppState), t.outputCtx = true →
        onmessage c (audioMsg d) t
          = ({ t with status := Status.speaking,
                      nextStartTime := max t.nextStartTime c + d,
                      sources := t.sources
                        ++ [⟨t.nextSourceId, max t.nextStartTime c, d⟩],
                      nextSourceId := t.nextSourceId + 1 }, []))
    ∧ (playTrace chunks s).sources.map PlaySource.startAt
        = cumStarts 0 (chunks.map Prod.snd)
    ∧ (playTrace chunks s).nextStartTime = (chunks.map Prod.snd).sum) := by
  have h := playTrace_spec chunks s h1 (by rw [h3]; exact h4)
  refine ⟨audio_step, ?_, ?_⟩
  · rw [h.1, h2, h3]
    simp
  · rw [h.2, h3]
    simp

/-- Witness for C1 at two chunks of durations 2 and 3 delivered at clock
times 0 and 1. -/
theorem scheduler_cumulative_starts_witness :
    (clocksDominated 0 [((0 : ℚ), (2 : ℚ)), ((1 : ℚ), (3 : ℚ))]
    ∧ (playTrace [((0 : ℚ), (2 : ℚ)), ((1 : ℚ), (3 : ℚ))]
          listeningState).sources.map PlaySource.startAt = [(0 : ℚ), 2]
    ∧ (playTrace [((0 : ℚ), (2 : ℚ)), ((1 : ℚ), (3 : ℚ))]
          listeningState).nextStartTime = 5) := by
  have hdom : clocksDominated 0 [((0 : ℚ), (2 : ℚ)), ((1 : ℚ), (3 : ℚ))] := by
    simp only [clocksDominated]
    norm_num
  have h := scheduler_cumulative_starts _ listeningState rfl rfl rfl hdom
  refine ⟨hdom, ?_, ?_⟩
  · rw [h.2.1]
    norm_num [cumStarts]
  · rw [h.2.2]
    norm_num

/-- C2: a turn-complete signal appends, for each of the user and
assistant open buffers whose trimmed content is non-empty, exactly one
entry in the fixed order user-then-assistant, then resets both buffers;
with both trimmed buffers empty nothing is appended; and cross-speaker
delta messages commute, so the order of arrival of the two speakers is
irrelevant. -/
theorem turnComplete_seals (clock : ℚ) (s : AppState) (a b : String) :
    ((onmessage clock turnCompleteMsg s).1.transcript
        = s.transcript
          ++ (if jsTrim s.currentInput ≠ "" then
                [⟨Speaker.you, jsTrim s.currentInput⟩] else [])
          ++ (if jsTrim s.currentOutput ≠ "" then
                [⟨Speaker.teacher, jsTrim s.currentOutput⟩] else [])
    ∧ (onmessage clock turnCompleteMsg s).1.currentInput = ""
    ∧ (onmessage clock turnCompleteMsg s).1.currentOutput = ""
    ∧ (jsTrim s.currentInput = "" → jsTrim s.currentOutput = "" →
        (onmessage clock turnCompleteMsg s).1.transcript = s.transcript)
    ∧ onmessage clock (inputDeltaMsg a) (onmessage clock (outputDeltaMsg b) s).1
        = onmessage clock (outputDeltaMsg b)
            (onmessage clock (inputDeltaMsg a) s).1) := by
  refine ⟨?_, rfl, rfl, ?_, rfl⟩
  · by_cases hI : jsTrim s.currentInput = "" <;>
      by_cases hO : jsTrim s.currentOutput = "" <;>
        simp [onmessage, turnCompleteMsg, sealTurn, hI, hO]
  · intro hI hO
    simp [onmessage, turnCompleteMsg, sealTurn, hI, hO]

/-- Witness for C2 at the spec example deltas. -/
theorem turnComplete_seals_witness :
    ((onmessage 0 turnCompleteMsg speakingState).1.transcript
        = [⟨Speaker.you, "Hi there"⟩,
           ⟨Speaker.teacher, "Hello! How can I help?"⟩]
    ∧ (onmessage 0 turnCompleteMsg speakingState).1.currentInput = ""
    ∧ (onmessage 0 turnCompleteMsg speakingState).1.currentOutput = "") := by
  have h := turnComplete_seals 0 speakingState "" ""
  refine ⟨?_, h.2.1, h.2.2.1⟩
  rw [h.1]
  decide

/-- C3 (counterexample): a transport error while listening does not leave
the status at error; the full stop run by the error handler has already
moved it to idle. -/
theorem onerror_status_counterexample :
    (listeningState.status = Status.listening
    ∧ (onerror "boom" listeningState).1.status = Status.idle
    ∧ ¬ (onerror "boom" listeningState).1.status = Status.error) := by
  have h2 : (onerror "boom" listeningState).1.status = Status.idle := rfl
  refine ⟨rfl, h2, ?_⟩
  rw [h2]
  decide

/-- C3 (amended): a transport error while listening records the
user-visible error message and transiently sets status error, but the
full stop it triggers leaves the final status idle; the active sources
are emptied, the session is closed and the microphone stream is released
so a later start can acquire it again. -/
theorem onerror_full_stop (m : String) (s : AppState)
    (h : s.status = Status.listening) :
    ((onerror m s).1.status = Status.idle
    ∧ (onerror m s).1.errorMessage
        = "An error occurred: " ++ m ++ ". Please try again."
    ∧ (onerror m s).1.sources = []
    ∧ (onerror m s).1.mediaStream = none
    ∧ (onerror m s).1.sessionActive = false) := by
  cases hS : s.sessionActive <;>
    simp [onerror, stopConversation, cleanUpAudio, stopAllPlayback, hS]

/-- Witness for the amended C3 theorem at a concrete listening state. -/
theorem onerror_full_stop_witness :
    (listeningState.status = Status.listening
    ∧ (onerror "boom" listeningState).1.sources = []
    ∧ (onerror "boom" listeningState).1.mediaStream = none) := by
  have h := onerror_full_stop "boom" listeningState rfl
  exact ⟨rfl, h.2.2.1, h.2.2.2.1⟩

/-- C4: immediately after an interruption the source set is empty and
nextStartTime is 0, so the next enqueued chunk is scheduled to start
exactly at the current clock time. -/
theorem interrupt_resets (s : AppState) (clock d : ℚ)
    (hc : 0 ≤ clock) (hctx : s.outputCtx = true) :
    ((stopAllPlayback s).1.sources = []
    ∧ (stopAllPlayback s).1.nextStartTime = 0
    ∧ (onmessage clock (audioMsg d) (stopAllPlayback s).1).1.sources
        = [⟨(stopAllPlayback s).1.nextSourceId, clock, d⟩]) := by
  refine ⟨rfl, rfl, ?_⟩
  rw [audio_step clock d (stopAllPlayback s).1 hctx]
  show ([] : List PlaySource) ++ [⟨s.nextSourceId, max 0 clock, d⟩]
      = [⟨s.nextSourceId, clock, d⟩]
  rw [max_eq_right hc]
  simp

/-- Witness for C4 at the speaking state, clock 5 and duration 2. -/
theorem interrupt_resets_witness :
    ((0 : ℚ) ≤ 5
    ∧ (stopAllPlayback speakingState).1.sources = []
    ∧ (stopAllPlayback speakingState).1.nextStartTime = 0
    ∧ (onmessage 5 (audioMsg 2) (stopAllPlayback speakingState).1).1.sources
        = [⟨2, 5, 2⟩]) := by
  have h := interrupt_resets speakingState 5 2 (by norm_num) rfl
  exact ⟨by norm_num, h.1, h.2.1, h.2.2⟩

/-- C5: an interruption signal arriving while speaking stops every
currently scheduled source (a stop effect per source, set cleared), and
once the ended events of the stopped sources fire the status is back to
listening. -/
theorem interrupted_while_speaking (clock : ℚ) (s : AppState)
    (h1 : s.status = Status.speaking) (h2 : s.sources ≠ []) :
    ((onmessage clock interruptedMsg s).1.sources = []
    ∧ (onmessage clock interruptedMsg s).2
        = s.sources.map (fun src => Effect.sourceStop src.id)
    ∧ (deliverEnded (s.sources.map PlaySource.id)
          (onmessage clock interruptedMsg s).1).status = Status.listening
    ∧ (deliverEnded (s.sources.map PlaySource.id)
          (onmessage clock interruptedMsg s).1).sources = []) := by
  obtain ⟨src, rest, hsrc⟩ : ∃ a l, s.sources = a :: l := by
    cases hs : s.sources with
    | nil => exact absurd hs h2
    | cons a l => exact ⟨a, l, rfl⟩
  have hfirst : (onEnded src.id (stopAllPlayback s).1).sources = []
      ∧ (onEnded src.id (stopAllPlayback s).1).status = Status.listening := by
    simp [onEnded, stopAllPlayback]
  have hrest := deliverEnded_inv (rest.map PlaySource.id) _ hfirst.1 hfirst.2
  refine ⟨rfl, rfl, ?_, ?_⟩
  · rw [hsrc]
    exact hrest.2
  · rw [hsrc]
    exact hrest.1

/-- Witness for C5 at the concrete speaking state. -/
theorem interrupted_while_speaking_witness :
    (speakingState.status = Status.speaking
    ∧ speakingState.sources ≠ []
    ∧ (deliverEnded (speakingState.sources.map PlaySource.id)
          (onmessage 0 interruptedMsg speakingState).1).status
        = Status.listening
    ∧ (onmessage 0 interruptedMsg speakingState).1.sources = []) := by
  have h := interrupted_while_speaking 0 speakingState rfl (by decide)
  exact ⟨rfl, by decide, h.2.2.1, h.1⟩

/-- C6: across the in-session operations, one message step either leaves
the virtual clock nextStartTime non-decreasing (audio of non-negative
duration, deltas, turn-complete) or carries the interrupted flag and
resets it to 0; the ended listener never changes it. -/
theorem nextStartTime_monotone (clock : ℚ) (msg : ServerMessage)
    (s : AppState)
    (hd : ∀ a, msg.audioData = some a → 0 ≤ a.duration) :
    ((s.nextStartTime ≤ (onmessage clock msg s).1.nextStartTime
      ∨ (msg.interrupted = true
        ∧ (onmessage clock msg s).1.nextStartTime = 0))
    ∧ ∀ i, (onEnded i s).nextStartTime = s.nextStartTime) := by
  constructor
  · rw [onmessage_nst]
    by_cases hI : msg.interrupted
    · right
      exact ⟨hI, by rw [if_pos hI]⟩
    · left
      rw [if_neg hI]
      cases hA : msg.audioData with
      | none => exact le_refl _
      | some a =>
          by_cases hctx : s.outputCtx
          · show s.nextStartTime
                ≤ if s.outputCtx then max s.nextStartTime clock + a.duration
                  else s.nextStartTime
            rw [if_pos hctx]
            calc s.nextStartTime ≤ max s.nextStartTime clock :=
                  le_max_left _ _
              _ ≤ max s.nextStartTime clock + a.duration :=
                  le_add_of_nonneg_right (hd a hA)
          · show s.nextStartTime
                ≤ if s.outputCtx then max s.nextStartTime clock + a.duration
                  else s.nextStartTime
            rw [if_neg hctx]
  · intro i
    simp only [onEnded]
    split <;> rfl

/-- Witness for C6 at an audio message of duration 2 and clock 3. -/
theorem nextStartTime_monotone_witness :
    ((∀ a, (audioMsg 2).audioData = some a → 0 ≤ a.duration)
    ∧ (listeningState.nextStartTime
          ≤ (onmessage 3 (audioMsg 2) listeningState).1.nextStartTime
        ∨ ((audioMsg 2).interrupted = true
          ∧ (onmessage 3 (audioMsg 2) listeningState).1.nextStartTime
              = 0))) := by
  have hd : ∀ a, (audioMsg 2).audioData = some a → 0 ≤ a.duration := by
    intro a ha
    injection ha with h
    subst h
    show (0 : ℚ) ≤ 2
    norm_num
  exact ⟨hd, (nextStartTime_monotone 3 (audioMsg 2) listeningState hd).1⟩

/-- C9: stop always leaves status idle, stop after stop equals a single
stop and performs no further effects (no double release), and run with no
session in place it never emits a session close. -/
theorem stop_idempotent (s : AppState) :
    ((stopConversation s).1.status = Status.idle
    ∧ stopConversation (stopConversation s).1 = ((stopConversation s).1, [])
    ∧ (s.sessionActive = false →
        Effect.sessionClose ∉ (stopConversation s).2)) := by
  refine ⟨?_, ?_, ?_⟩
  · rw [stopConversation_state]
  · rw [stopConversation_state s]
    simp [stopConversation, cleanUpAudio, stopAllPlayback]
  · intro h
    simp [stopConversation, h, sessionClose_not_in_cleanUpAudio]

/-- Witness for C9 at a state with no session. -/
theorem stop_idempotent_witness :
    (freshState.sessionActive = false
    ∧ Effect.sessionClose ∉ (stopConversation freshState).2
    ∧ (stopConversation freshState).1.status = Status.idle
    ∧ stopConversation (stopConversation freshState).1
        = ((stopConversation freshState).1, [])) := by
  have h := stop_idempotent freshState
  exact ⟨rfl, h.2.2 rfl, h.1, h.2.1⟩

/-- C10: when start fails after the microphone stream was acquired, the
catch block only records the failure message and sets status error: no
effects run, the stream stays held, no session promise is recorded, and
the contexts created before the throw stay held. -/
theorem start_failure_no_cleanup (s : AppState) (k : Nat)
    (p : StartFailPhase) (m : String) :
    ((startConversation (StartOutcome.failAfter k p m) s).2 = []
    ∧ (startConversation (StartOutcome.failAfter k p m) s).1.status
        = Status.error
    ∧ (startConversation (StartOutcome.failAfter k p m) s).1.errorMessage
        = failMsg m
    ∧ (startConversation (StartOutcome.failAfter k p m) s).1.mediaStream
        = some k
    ∧ (startConversation (StartOutcome.failAfter k p m) s).1.sessionActive
        = s.sessionActive
    ∧ (startConversation (StartOutcome.failAfter k p m) s).1.sources
        = s.sources
    ∧ (startConversation (StartOutcome.failAfter k p m) s).1.nextStartTime
        = s.nextStartTime
    ∧ (p = StartFailPhase.connectCall →
        (startConversation (StartOutcome.failAfter k p m) s).1.inputCtx = true
        ∧ (startConversation
            (StartOutcome.failAfter k p m) s).1.outputCtx = true)) := by
  cases p <;> simp [startConversation]

/-- Witness for C10 at a failure in the connect call. -/
theorem start_failure_no_cleanup_witness :
    ((startConversation
        (StartOutcome.failAfter 3 StartFailPhase.connectCall "denied")
        freshState).1.mediaStream = some 3
    ∧ (startConversation
        (StartOutcome.failAfter 3 StartFailPhase.connectCall "denied")
        freshState).1.status = Status.error
    ∧ (startConversation
        (StartOutcome.failAfter 3 StartFailPhase.connectCall "denied")
        freshState).2 = []
    ∧ (startConversation
        (StartOutcome.failAfter 3 StartFailPhase.connectCall "denied")
        freshState).1.inputCtx = true) := by
  have h := start_failure_no_cleanup freshState 3 StartFailPhase.connectCall
    "denied"
  exact ⟨h.2.2.2.1, h.2.1, h.1, (h.2.2.2.2.2.2.2 rfl).1⟩

end EnglishTeacher
